import Mathlib

/-!
Shallow embedding of the PID-demo simulation core.

Numbers: JavaScript floating-point values are modelled as exact rationals
where the code only uses field arithmetic, and as real numbers where the
code uses trigonometric functions or pi.  The pair `Option ℚ` models the
JS `-Infinity` / `Infinity` default anti-windup bounds (`none` stands for
the corresponding infinity, so `Math.max(-Infinity, v) = v` and
`Math.min(Infinity, v) = v`).
-/

namespace PIDDemo

/-- PID gains `{kp, ki, kd}` as passed to every compute call. -/
structure Gains where
  kp : ℚ
  ki : ℚ
  kd : ℚ
deriving DecidableEq

/-- Configuration of the windowed `createPIDController` embedded in
`InvertedPendulumStandalone.jsx` and `DroneAltitudeStandalone.jsx`
(both `HotTub.jsx` documents instead import the non-windowed controller
from `utils/pidController.js`): `integralMin` (default `-Infinity`,
modelled `none`), `integralMax` (default `Infinity`, modelled `none`)
and `derivativeWindowSize` (default 5). -/
structure PIDConfig where
  integralMin : Option ℚ
  integralMax : Option ℚ
  derivativeWindowSize : ℕ
deriving DecidableEq

/-- `Math.min(integralMax, v)` where `integralMax` defaults to `Infinity`. -/
def jsMinOpt (bound : Option ℚ) (v : ℚ) : ℚ :=
  match bound with
  | none => v
  | some M => min M v

/-- `Math.max(integralMin, v)` where `integralMin` defaults to `-Infinity`. -/
def jsMaxOpt (bound : Option ℚ) (v : ℚ) : ℚ :=
  match bound with
  | none => v
  | some m => max m v

/-- Mutable state of the embedded windowed PID controller:
`{integral, prevError, initialized, derivativeHistory}`. -/
structure PIDState where
  integral : ℚ
  prevError : ℚ
  initialized : Bool
  derivativeHistory : List ℚ
deriving DecidableEq

/-- The fields returned by the embedded controller's `compute`. -/
structure PIDOutput where
  output : ℚ
  errorP : ℚ
  errorI : ℚ
  errorD : ℚ
deriving DecidableEq

/-- One `compute(error, gains, dt)` call of the windowed PID controller
embedded in `InvertedPendulumStandalone.jsx` and
`DroneAltitudeStandalone.jsx`: anti-windup clamped integral, raw
derivative suppressed on the first call after construction or reset,
moving-average filtered derivative over a FIFO bounded by
`derivativeWindowSize`. -/
def PIDState.compute (cfg : PIDConfig) (s : PIDState) (error : ℚ) (gains : Gains)
    (dt : ℚ) : PIDState × PIDOutput :=
  let newIntegral := jsMaxOpt cfg.integralMin (jsMinOpt cfg.integralMax (s.integral + error * dt))
  let rawDerivative := if s.initialized then (error - s.prevError) / dt else 0
  let pushed := s.derivativeHistory ++ [rawDerivative]
  let hist := if cfg.derivativeWindowSize < pushed.length then pushed.tail else pushed
  let derivative := hist.sum / (hist.length : ℚ)
  let out := gains.kp * error + gains.ki * newIntegral + gains.kd * derivative
  (⟨newIntegral, error, true, hist⟩, ⟨out, error, newIntegral, derivative⟩)

/-- The controller state right after construction, and also the state
produced by `reset()`: zero integral, zero `prevError`, `initialized`
false and an empty derivative history. -/
def pidResetState : PIDState := ⟨0, 0, false, []⟩

/-- Iterate the embedded controller `n` times with a constant
`(error, gains, dt)` triple, keeping only the state. -/
def pidIterate (cfg : PIDConfig) (error : ℚ) (gains : Gains) (dt : ℚ) (n : ℕ)
    (s : PIDState) : PIDState :=
  (fun t => (PIDState.compute cfg t error gains dt).1)^[n] s

/-- Result record `{output, integral, prevError}` of `computePID` in
`utils/pidController.js`. -/
structure UtilsPIDResult where
  output : ℚ
  integral : ℚ
  prevError : ℚ
deriving DecidableEq

/-- `computePID` from `utils/pidController.js`: no initialized flag and no
derivative window; the derivative is always `(error - prevError) / dt`. -/
def computePID (error integral prevError : ℚ) (kp ki kd dt : ℚ)
    (integralMin integralMax : Option ℚ) : UtilsPIDResult :=
  let newIntegral := jsMaxOpt integralMin (jsMinOpt integralMax (integral + error * dt))
  let derivative := (error - prevError) / dt
  let output := kp * error + ki * newIntegral + kd * derivative
  ⟨output, newIntegral, error⟩

/-- State of a `createPIDController` instance from `utils/pidController.js`:
just `{integral, prevError}`, both starting (and resetting) to 0. -/
structure UtilsPIDState where
  integral : ℚ
  prevError : ℚ
deriving DecidableEq

/-- Initial (and reset) state of the utils controller. -/
def utilsResetState : UtilsPIDState := ⟨0, 0⟩

/-- One `compute(error, gains, dt)` call of the utils controller instance. -/
def UtilsPIDState.compute (s : UtilsPIDState) (error : ℚ) (gains : Gains) (dt : ℚ)
    (integralMin integralMax : Option ℚ) : UtilsPIDState × ℚ :=
  let r := computePID error s.integral s.prevError gains.kp gains.ki gains.kd dt
    integralMin integralMax
  (⟨r.integral, r.prevError⟩, r.output)

/-- The configured anti-windup bounds are consistent: whenever both are
finite, the lower one is at most the upper one. -/
def PIDConfig.consistent (cfg : PIDConfig) : Prop :=
  match cfg.integralMin, cfg.integralMax with
  | some m, some M => m ≤ M
  | _, _ => True

/-- `v` lies in the (possibly half-infinite) interval
`[integralMin, integralMax]`. -/
def memBounds (lo hi : Option ℚ) (v : ℚ) : Prop :=
  (match lo with
   | none => True
   | some m => m ≤ v) ∧
  (match hi with
   | none => True
   | some M => v ≤ M)

/-! ### Thermal tank (`HotTub.jsx`, first document: HotTubSimulator) -/

/-- Simulation state of the hot-tub thermal tank. -/
structure TubState where
  temperature : ℚ
  setpoint : ℚ
  ambient : ℚ
  time : ℚ
  heaterPower : ℚ
deriving DecidableEq

/-- `simulateStep(power)` of the HotTubSimulator, with the file's constants
`HEAT_LOSS_COEFFICIENT = 500`, `THERMAL_MASS = 1500 * 4186 = 6279000`,
`DT = 0.1`, heater power clamped to `[0, 15000]` and the temperature
clamped to `[0, 50]` after integration. -/
def hotTubStep (power : ℚ) (s : TubState) : TubState :=
  let p := max 0 (min 15000 power)
  let heatLoss := 500 * (s.temperature - s.ambient)
  let netPower := p - heatLoss
  let dT := netPower * (1/10) / 6279000
  { temperature := max 0 (min 50 (s.temperature + dT))
    setpoint := s.setpoint
    ambient := s.ambient
    time := s.time + 1/10
    heaterPower := p }

/-- Iterated thermal steps with a constant commanded power. -/
def hotTubIterate (power : ℚ) (n : ℕ) (s : TubState) : TubState :=
  (hotTubStep power)^[n] s

/-! ### Thrust body (DroneAltitudeSimulator embedded in `HotTub.jsx`,
identical physics to `drone_simulator.jsx`) -/

/-- Simulation state of the embedded drone-altitude plant. -/
structure DroneEmbState where
  altitude : ℚ
  velocity : ℚ
  mass : ℚ
  setpoint : ℚ
  time : ℚ
  thrust : ℚ
  crashed : Bool
deriving DecidableEq

/-- `simulateStep(controlSignal)` of the DroneAltitudeSimulator embedded in
`HotTub.jsx` (constants `GRAVITY = 9.81`, `BASE_DRONE_MASS = 2`,
`MIN_THRUST = -500`, `MAX_THRUST = 500`, `DT = 0.001`,
`MAX_ALTITUDE = 100`).  A crashed state returns immediately unchanged. -/
def droneEmbStep (controlSignal : ℚ) (s : DroneEmbState) : DroneEmbState :=
  if s.crashed then s else
  let u := max (-500) (min 500 controlSignal)
  let baseHoverThrust := 2 * (981/100)
  let actualThrust := baseHoverThrust + u
  let gravityForce := s.mass * (981/100)
  let netForce := actualThrust - gravityForce
  let acceleration := if 0 < s.mass then netForce / s.mass else 0
  let velocity := s.velocity + acceleration * (1/1000)
  let altitude := s.altitude + velocity * (1/1000)
  let s1 : DroneEmbState :=
    { altitude := altitude, velocity := velocity, mass := s.mass,
      setpoint := s.setpoint, time := s.time + 1/1000, thrust := u,
      crashed := s.crashed }
  if altitude ≤ 0 ∨ 100 ≤ altitude then
    { s1 with crashed := true, altitude := max 0 (min 100 altitude), velocity := 0 }
  else s1

/-- `resetSimulation` of the embedded drone: fresh state at altitude 50
with the crashed flag false and the base mass restored. -/
def droneEmbReset : DroneEmbState :=
  ⟨50, 0, 2, 50, 0, 0, false⟩

/-! ### Fixed-step accumulator loop (`usePhysicsSimulation.js` and the
per-file animation loops) -/

/-- The accumulator drain: `while (accumulator >= dtMs) { step; accumulator
-= dtMs }`.  `step` receives the global physics-tick index, so "the same
per-step inputs" is tick-indexed actuation; the result is the final tick
index, leftover accumulator and state. -/
def drainLoop {S : Type} (dtMs : ℚ) (hdt : 0 < dtMs) (step : ℕ → S → S)
    (k : ℕ) (acc : ℚ) (s : S) : ℕ × ℚ × S :=
  if h : dtMs ≤ acc then
    drainLoop dtMs hdt step (k + 1) (acc - dtMs) (step k s)
  else
    (k, acc, s)
  termination_by (⌊acc / dtMs⌋).toNat
  decreasing_by
    have h1 : (acc - dtMs) / dtMs = acc / dtMs - 1 := by
      rw [sub_div, div_self hdt.ne']
    have h2 : (1 : ℚ) ≤ acc / dtMs := (one_le_div hdt).mpr h
    have h3 : (1 : ℤ) ≤ ⌊acc / dtMs⌋ := by
      exact_mod_cast Int.le_floor.mpr (by exact_mod_cast h2)
    rw [h1, Int.floor_sub_one]
    omega

/-- One animation-frame update: cap the frame delta at 50 ms, scale it by
`timeScale`, add it to the accumulator, then drain. -/
def frameUpdate {S : Type} (dtMs : ℚ) (hdt : 0 < dtMs) (step : ℕ → S → S)
    (timeScale : ℚ) (st : ℕ × ℚ × S) (delta : ℚ) : ℕ × ℚ × S :=
  drainLoop dtMs hdt step st.1 (st.2.1 + min delta 50 * timeScale) st.2.2

/-- Feed a whole sequence of frame deltas through the loop. -/
def runFrames {S : Type} (dtMs : ℚ) (hdt : 0 < dtMs) (step : ℕ → S → S)
    (timeScale : ℚ) (deltas : List ℚ) (st : ℕ × ℚ × S) : ℕ × ℚ × S :=
  deltas.foldl (frameUpdate dtMs hdt step timeScale) st

/-! ### Real-valued plants: setpoint generators, standalone drone, and the
two cart-pendulum variants -/

/-- Truncation toward zero, as used by the JS remainder operator. -/
noncomputable def jsTrunc (z : ℝ) : ℝ :=
  if 0 ≤ z then (⌊z⌋ : ℝ) else -(⌊-z⌋ : ℝ)

/-- The JS remainder `x % y` (result carries the sign of the dividend). -/
noncomputable def jsMod (x y : ℝ) : ℝ :=
  x - y * jsTrunc (x / y)

/-- First normalization loop of the pendulum simulators:
`while (theta > PI) theta -= 2 * PI`. -/
noncomputable def normUp (θ : ℝ) : ℝ :=
  if h : Real.pi < θ then normUp (θ - 2 * Real.pi) else θ
  termination_by (⌈(θ - Real.pi) / (2 * Real.pi)⌉).toNat
  decreasing_by
    have hpi : (0 : ℝ) < Real.pi := Real.pi_pos
    have h1 : (θ - 2 * Real.pi - Real.pi) / (2 * Real.pi)
        = (θ - Real.pi) / (2 * Real.pi) - 1 := by
      field_simp
      ring
    have h2 : (0 : ℝ) < (θ - Real.pi) / (2 * Real.pi) :=
      div_pos (by linarith) (by linarith)
    have h3 : (1 : ℤ) ≤ ⌈(θ - Real.pi) / (2 * Real.pi)⌉ := Int.ceil_pos.mpr h2
    rw [h1, Int.ceil_sub_one]
    omega

/-- Second normalization loop:
`while (theta < -PI) theta += 2 * PI`. -/
noncomputable def normDown (θ : ℝ) : ℝ :=
  if h : θ < -Real.pi then normDown (θ + 2 * Real.pi) else θ
  termination_by (⌈(-Real.pi - θ) / (2 * Real.pi)⌉).toNat
  decreasing_by
    have hpi : (0 : ℝ) < Real.pi := Real.pi_pos
    have h1 : (-Real.pi - (θ + 2 * Real.pi)) / (2 * Real.pi)
        = (-Real.pi - θ) / (2 * Real.pi) - 1 := by
      field_simp
      ring
    have h2 : (0 : ℝ) < (-Real.pi - θ) / (2 * Real.pi) :=
      div_pos (by linarith) (by linarith)
    have h3 : (1 : ℤ) ≤ ⌈(-Real.pi - θ) / (2 * Real.pi)⌉ := Int.ceil_pos.mpr h2
    rw [h1, Int.ceil_sub_one]
    omega

/-- Both normalization loops, as run at the end of every pendulum step. -/
noncomputable def normalizeAngle (θ : ℝ) : ℝ :=
  normDown (normUp θ)

/-- Setpoint modes of `DroneAltitudeStandalone.jsx`. -/
inductive SetpointMode where
  | constant
  | sine
  | box
deriving DecidableEq

/-- The slider-controlled setpoint parameters captured by
`calculateSetpoint`. -/
structure SetpointCfg where
  constantSetpoint : ℝ
  sineAmplitude : ℝ
  sineFrequency : ℝ
  boxAmplitude : ℝ
  boxFrequency : ℝ

/-- `calculateSetpoint(time)` of `DroneAltitudeStandalone.jsx`: constant,
sinusoidal around the 50 m base, or box/square wave around the base with
period `1 / boxFrequency`. -/
noncomputable def calculateSetpoint (cfg : SetpointCfg) (mode : SetpointMode)
    (time : ℝ) : ℝ :=
  let baseSetpoint : ℝ := 50
  match mode with
  | .constant => cfg.constantSetpoint
  | .sine =>
      baseSetpoint + cfg.sineAmplitude * Real.sin (2 * Real.pi * cfg.sineFrequency * time)
  | .box =>
      let period := 1 / cfg.boxFrequency
      let phase := jsMod time period / period
      baseSetpoint + (if phase < 1/2 then cfg.boxAmplitude else -cfg.boxAmplitude)

/-- Simulation state of the standalone drone
(`DroneAltitudeStandalone.jsx`). -/
structure DroneSState where
  altitude : ℝ
  velocity : ℝ
  mass : ℝ
  setpoint : ℝ
  time : ℝ
  thrust : ℝ
  crashed : Bool

/-- `simulateStep(controlSignal)` of `DroneAltitudeStandalone.jsx`
(`GRAVITY = 9.81`, `MIN_THRUST = -2000`, `MAX_THRUST = 2000`,
`DT = 0.001`, `MAX_ALTITUDE = 100`): the clamped control signal is applied
directly as the total thrust (no hover-baseline offset), the setpoint is
recomputed from the advanced time, and leaving `[0, 100]` crashes the
drone with the altitude clamped back and the velocity zeroed. -/
noncomputable def droneSStep (cfg : SetpointCfg) (mode : SetpointMode)
    (controlSignal : ℝ) (s : DroneSState) : DroneSState :=
  if s.crashed then s else
  let thrust := max (-2000) (min 2000 controlSignal)
  let gravityForce := s.mass * (981/100)
  let netForce := thrust - gravityForce
  let acceleration := netForce / s.mass
  let velocity := s.velocity + acceleration * (1/1000)
  let altitude := s.altitude + velocity * (1/1000)
  let time := s.time + 1/1000
  let s1 : DroneSState :=
    { altitude := altitude, velocity := velocity, mass := s.mass,
      setpoint := calculateSetpoint cfg mode time, time := time,
      thrust := thrust, crashed := s.crashed }
  if altitude ≤ 0 ∨ 100 ≤ altitude then
    { s1 with crashed := true, altitude := max 0 (min 100 altitude), velocity := 0 }
  else s1

/-- Simulation state of the standalone cart-pendulum
(`InvertedPendulumStandalone.jsx`). -/
structure PendState where
  theta : ℝ
  thetaDot : ℝ
  x : ℝ
  xDot : ℝ
  time : ℝ
  force : ℝ
  floorTilt : ℝ

/-- Terminal classification returned by the standalone pendulum step. -/
inductive PendFailure where
  | crashed
  | fallen
deriving DecidableEq

/-- The state-mutation part of `simulateStep(force, currentFallen,
floorTilt)` in `InvertedPendulumStandalone.jsx`: tilt-adjusted dynamics,
Euler integration with `DT = 0.001` and angle normalization.  The random
noise sample (`(Math.random() - 0.5) * 2 * NOISE_AMPLITUDE`) is passed in
explicitly.  Constants: `m = 0.25`, `M = 1`, `l = 2`, `g = 9.81`,
`b = 0.1`, `c = 0.01`. -/
noncomputable def pendIntegrateS (force floorTilt noise : ℝ) (s : PendState) :
    PendState :=
  let m : ℝ := 1/4
  let M : ℝ := 1
  let l : ℝ := 2
  let g : ℝ := 981/100
  let b : ℝ := 1/10
  let c : ℝ := 1/100
  let effectiveTheta := s.theta + floorTilt
  let sinTheta := Real.sin effectiveTheta
  let cosTheta := Real.cos effectiveTheta
  let cartGravityForce := (M + m) * g * Real.sin floorTilt
  let denom := l * (4/3 - m * cosTheta * cosTheta / (M + m))
  let thetaDDot := (g * sinTheta +
    cosTheta * ((-force - cartGravityForce - m * l * s.thetaDot * s.thetaDot * sinTheta
      + b * s.xDot) / (M + m)) -
    c * s.thetaDot / (m * l) + noise) / denom
  let xDDot := (force + cartGravityForce +
    m * l * (s.thetaDot * s.thetaDot * sinTheta - thetaDDot * cosTheta)
    - b * s.xDot) / (M + m)
  let thetaDot := s.thetaDot + thetaDDot * (1/1000)
  let theta := s.theta + thetaDot * (1/1000)
  let xDot := s.xDot + xDDot * (1/1000)
  let x := s.x + xDot * (1/1000)
  { theta := normalizeAngle theta, thetaDot := thetaDot, x := x, xDot := xDot,
    time := s.time + 1/1000, force := force, floorTilt := floorTilt }

/-- Full `simulateStep` of `InvertedPendulumStandalone.jsx`: no-op when
`currentFallen` is already set, otherwise integrate and classify — the
track-limit check (`|x| > TRACK_WIDTH / 2 - 0.2` with `TRACK_WIDTH = 20`)
runs first and returns immediately, then the fallen check
(`|theta| > PI / 2`). -/
noncomputable def pendStepS (force floorTilt noise : ℝ) (currentFallen : Bool)
    (s : PendState) : Option PendFailure × PendState :=
  if currentFallen then (none, s) else
  let s1 := pendIntegrateS force floorTilt noise s
  if 20 / 2 - 1/5 < |s1.x| then (some .crashed, s1)
  else if Real.pi / 2 < |s1.theta| then (some .fallen, s1)
  else (none, s1)

/-- Simulation state of the cart-pendulum embedded in
`usePhysicsSimulation.js` (InvertedPendulumSimulator). -/
structure HookPendState where
  theta : ℝ
  thetaDot : ℝ
  x : ℝ
  xDot : ℝ
  integral : ℝ
  prevError : ℝ
  time : ℝ
  fallen : Bool

/-- `simulateStep(force)` of the InvertedPendulumSimulator embedded in
`usePhysicsSimulation.js` (`TRACK_WIDTH = 10`, same physics constants as
the standalone, no floor tilt): a fallen state returns immediately;
otherwise integrate, normalize, set `fallen` when `|theta| > PI / 2`, and
bounce off the track limits (clamping `x` to `±(10 / 2 - 0.2)` and
reflecting `xDot` with a factor `-0.5`) instead of marking a crash. -/
noncomputable def hookPendStep (force noise : ℝ) (s : HookPendState) :
    HookPendState :=
  if s.fallen then s else
  let m : ℝ := 1/4
  let M : ℝ := 1
  let l : ℝ := 2
  let g : ℝ := 981/100
  let b : ℝ := 1/10
  let c : ℝ := 1/100
  let sinTheta := Real.sin s.theta
  let cosTheta := Real.cos s.theta
  let denom := l * (4/3 - m * cosTheta * cosTheta / (M + m))
  let thetaDDot := (g * sinTheta +
    cosTheta * ((-force - m * l * s.thetaDot * s.thetaDot * sinTheta
      + b * s.xDot) / (M + m)) -
    c * s.thetaDot / (m * l) + noise) / denom
  let xDDot := (force + m * l * (s.thetaDot * s.thetaDot * sinTheta - thetaDDot * cosTheta)
    - b * s.xDot) / (M + m)
  let thetaDot := s.thetaDot + thetaDDot * (1/1000)
  let theta := normalizeAngle (s.theta + thetaDot * (1/1000))
  let xDot := s.xDot + xDDot * (1/1000)
  let x := s.x + xDot * (1/1000)
  let fallen := if Real.pi / 2 < |theta| then true else s.fallen
  { theta := theta, thetaDot := thetaDot,
    x := if 10 / 2 - 1/5 < |x| then Real.sign x * (10 / 2 - 1/5) else x,
    xDot := if 10 / 2 - 1/5 < |x| then -xDot * (1/2) else xDot,
    integral := s.integral, prevError := s.prevError,
    time := s.time + 1/1000, fallen := fallen }

/-- `resetSimulation` of the embedded InvertedPendulumSimulator: fresh
state at a small random initial angle `θ0`, with `fallen` cleared. -/
def hookPendReset (θ0 : ℝ) : HookPendState :=
  ⟨θ0, 0, 0, 0, 0, 0, 0, false⟩

/-- The push-then-trim operation performed on the derivative FIFO by every
compute call of the windowed controller. -/
def pushTrim (W : ℕ) (l : List ℚ) (x : ℚ) : List ℚ :=
  let p := l ++ [x]
  if W < p.length then p.tail else p

/-! ## Helper lemmas -/

theorem memBounds_jsClamp (lo hi : Option ℚ) (v : ℚ)
    (hc : ∀ m M, lo = some m → hi = some M → m ≤ M) :
    memBounds lo hi (jsMaxOpt lo (jsMinOpt hi v)) := by
  cases lo with
  | none =>
      cases hi with
      | none => exact ⟨trivial, trivial⟩
      | some M => exact ⟨trivial, min_le_left _ _⟩
  | some m =>
      cases hi with
      | none => exact ⟨le_max_left _ _, trivial⟩
      | some M => exact ⟨le_max_left _ _, max_le (hc m M rfl rfl) (min_le_left _ _)⟩

theorem consistent_imp (cfg : PIDConfig) (h : cfg.consistent) :
    ∀ m M, cfg.integralMin = some m → cfg.integralMax = some M → m ≤ M := by
  intro m M hm hM
  unfold PIDConfig.consistent at h
  rw [hm, hM] at h
  exact h

/-! ## Claim theorems -/

/-- C1: after every `compute` call, with any error, gains and `dt`, the
controller's integral equals the anti-windup clamp of
`integral + error * dt` to the configured `[integralMin, integralMax]`
(defaults `-Infinity` / `Infinity`, modelled as `none`), and hence lies
within those bounds; the same holds for `computePID` of
`utils/pidController.js`.  Quantifying over the pre-state `s` covers every
sequence of compute calls. -/
theorem pid_integral_antiwindup (cfg : PIDConfig) (h : cfg.consistent) :
    (∀ (s : PIDState) (error : ℚ) (gains : Gains) (dt : ℚ),
      ((PIDState.compute cfg s error gains dt).1).integral
        = jsMaxOpt cfg.integralMin (jsMinOpt cfg.integralMax (s.integral + error * dt))) ∧
    (∀ (s : PIDState) (error : ℚ) (gains : Gains) (dt : ℚ),
      memBounds cfg.integralMin cfg.integralMax
        ((PIDState.compute cfg s error gains dt).1).integral) ∧
    (∀ (error integral prevError kp ki kd dt : ℚ),
      (computePID error integral prevError kp ki kd dt
          cfg.integralMin cfg.integralMax).integral
        = jsMaxOpt cfg.integralMin (jsMinOpt cfg.integralMax (integral + error * dt))) := by
  refine ⟨fun s error gains dt => rfl, fun s error gains dt => ?_,
    fun error integral prevError kp ki kd dt => rfl⟩
  exact memBounds_jsClamp _ _ _ (consistent_imp cfg h)

/-- Witness for C1 with the finite anti-windup bounds `-50` / `50` (the
values the HotTub drone passes to its controller) and a large error. -/
theorem pid_integral_antiwindup_witness :
    PIDConfig.consistent ⟨some (-50), some 50, 5⟩ ∧
    memBounds (some (-50)) (some 50)
      ((PIDState.compute ⟨some (-50), some 50, 5⟩ pidResetState 1000 ⟨25, 1, 0⟩ 1).1).integral :=
  ⟨by norm_num [PIDConfig.consistent],
   (pid_integral_antiwindup ⟨some (-50), some 50, 5⟩
      (by norm_num [PIDConfig.consistent])).2.1 pidResetState 1000 ⟨25, 1, 0⟩ 1⟩

/-- C2 (amended): the windowed embedded controllers
(`InvertedPendulumStandalone.jsx`, `DroneAltitudeStandalone.jsx`) report
`errorD = 0` on the first `compute` call after construction or `reset()`,
whatever the error magnitude; every `createPIDController` instance from
`utils/pidController.js` — the controller that both `HotTub.jsx`
simulators use — has no initialized flag and instead uses
`(error - prevError) / dt` with `prevError` starting at 0, so its first
compute uses derivative `error / dt` (see the counterexample). -/
theorem pid_first_compute_errorD_zero (cfg : PIDConfig) (error : ℚ)
    (gains : Gains) (dt : ℚ) :
    ((PIDState.compute cfg pidResetState error gains dt).2).errorD = 0 := by
  unfold PIDState.compute pidResetState
  by_cases h : cfg.derivativeWindowSize < 1 <;> simp [h]

/-- Counterexample for C2 as stated: the first `compute` of a fresh
`utils/pidController.js` controller instance with `error = 1`, `dt = 1`
and pure-derivative gains `{kp: 0, ki: 0, kd: 1}` outputs `1`, not the `0`
that a suppressed (zero) first raw derivative would give. -/
theorem utils_first_compute_derivative_kick :
    (UtilsPIDState.compute utilsResetState 1 ⟨0, 0, 1⟩ 1 none none).2 ≠ 0 := by
  norm_num [UtilsPIDState.compute, computePID, utilsResetState, jsMaxOpt, jsMinOpt]

/-- C9: the sinusoidal setpoint generator returns
`base + amplitude * sin(2 * pi * freq * t)` with base 50, the box
generator alternates `+amplitude` / `-amplitude` at the half-period
boundary of the period `1 / freq`, and the scenario sample at
`time = 2.5`, `base = 50`, `amplitude = 20`, `freq = 0.1` equals
`50 + 20 * sin(2 * pi * 0.1 * 2.5)`. -/
theorem setpoint_generators (cfg : SetpointCfg) (t : ℝ) :
    calculateSetpoint cfg SetpointMode.sine t
      = 50 + cfg.sineAmplitude * Real.sin (2 * Real.pi * cfg.sineFrequency * t) ∧
    calculateSetpoint cfg SetpointMode.box t
      = 50 + (if jsMod t (1 / cfg.boxFrequency) / (1 / cfg.boxFrequency) < 1/2
              then cfg.boxAmplitude else -cfg.boxAmplitude) ∧
    calculateSetpoint ⟨50, 20, 1/10, cfg.boxAmplitude, cfg.boxFrequency⟩
        SetpointMode.sine (5/2)
      = 50 + 20 * Real.sin (2 * Real.pi * (1/10) * (5/2)) :=
  ⟨rfl, rfl, rfl⟩

/-- C4: once a plant's terminal flag is set, `step` returns immediately
with the whole state unchanged (embedded drone and hook-embedded
pendulum, the two plants carrying a terminal flag), and only the explicit
reset functions produce a state with the flag cleared. -/
theorem terminal_stickiness :
    (∀ (u : ℚ) (s : DroneEmbState), s.crashed = true → droneEmbStep u s = s) ∧
    (∀ (force noise : ℝ) (s : HookPendState), s.fallen = true →
      hookPendStep force noise s = s) ∧
    (∀ θ0 : ℝ, (hookPendReset θ0).fallen = false) ∧
    droneEmbReset.crashed = false := by
  refine ⟨fun u s h => ?_, fun force noise s h => ?_, fun θ0 => rfl, rfl⟩
  · unfold droneEmbStep
    rw [if_pos h]
  · unfold hookPendStep
    rw [if_pos h]

/-- Witness for C4: a crashed drone state and a fallen pendulum state are
left exactly unchanged by further steps with nonzero actuation. -/
theorem terminal_stickiness_witness :
    (DroneEmbState.mk 0 (-3) 2 50 7 100 true).crashed = true ∧
    droneEmbStep 123 (DroneEmbState.mk 0 (-3) 2 50 7 100 true)
      = DroneEmbState.mk 0 (-3) 2 50 7 100 true ∧
    (HookPendState.mk 2 1 0 0 0 0 5 true).fallen = true ∧
    hookPendStep 50 (1/1000) (HookPendState.mk 2 1 0 0 0 0 5 true)
      = HookPendState.mk 2 1 0 0 0 0 5 true :=
  ⟨rfl, terminal_stickiness.1 123 _ rfl, rfl,
    terminal_stickiness.2.1 50 (1/1000) _ rfl⟩

/-- C7: every non-terminal drone step clamps the control signal to
`[minThrust, maxThrust]`, computes
`netForce = (hoverBaselineThrust + clampedSignal) - mass * gravity`
(hover baseline `2 * 9.81` for the embedded variant, `0` for the
standalone variant, which applies the clamped signal directly as total
thrust), takes `acceleration = netForce / mass`, and Euler-integrates
velocity then altitude with `dt = 0.001`, provided the integrated
altitude stays inside `(0, 100)` so that the step stays non-terminal. -/
theorem drone_step_force_law :
    (∀ (u : ℚ) (s : DroneEmbState), s.crashed = false → 0 < s.mass →
      0 < s.altitude + (s.velocity + (2 * (981/100) + max (-500) (min 500 u)
          - s.mass * (981/100)) / s.mass * (1/1000)) * (1/1000) →
      s.altitude + (s.velocity + (2 * (981/100) + max (-500) (min 500 u)
          - s.mass * (981/100)) / s.mass * (1/1000)) * (1/1000) < 100 →
      (droneEmbStep u s).thrust = max (-500) (min 500 u) ∧
      (droneEmbStep u s).velocity
        = s.velocity + (2 * (981/100) + max (-500) (min 500 u)
            - s.mass * (981/100)) / s.mass * (1/1000) ∧
      (droneEmbStep u s).altitude
        = s.altitude + (s.velocity + (2 * (981/100) + max (-500) (min 500 u)
            - s.mass * (981/100)) / s.mass * (1/1000)) * (1/1000) ∧
      (droneEmbStep u s).crashed = false) ∧
    (∀ (cfg : SetpointCfg) (mode : SetpointMode) (u : ℝ) (s : DroneSState),
      s.crashed = false →
      0 < s.altitude + (s.velocity + (0 + max (-2000) (min 2000 u)
          - s.mass * (981/100)) / s.mass * (1/1000)) * (1/1000) →
      s.altitude + (s.velocity + (0 + max (-2000) (min 2000 u)
          - s.mass * (981/100)) / s.mass * (1/1000)) * (1/1000) < 100 →
      (droneSStep cfg mode u s).thrust = max (-2000) (min 2000 u) ∧
      (droneSStep cfg mode u s).velocity
        = s.velocity + (0 + max (-2000) (min 2000 u)
            - s.mass * (981/100)) / s.mass * (1/1000) ∧
      (droneSStep cfg mode u s).altitude
        = s.altitude + (s.velocity + (0 + max (-2000) (min 2000 u)
            - s.mass * (981/100)) / s.mass * (1/1000)) * (1/1000) ∧
      (droneSStep cfg mode u s).crashed = false) := by
  constructor
  · intro u s hc hm h0 h100
    simp only [droneEmbStep, hc, Bool.false_eq_true, if_false]
    rw [if_pos hm, if_neg (show ¬_ from by push_neg; exact ⟨h0, h100⟩)]
    exact ⟨rfl, rfl, rfl, rfl⟩
  · intro cfg mode u s hc h0 h100
    simp only [droneSStep, hc, Bool.false_eq_true, if_false]
    rw [if_neg (show ¬_ from by
      push_neg
      simp only [zero_add] at h0 h100
      exact ⟨h0, h100⟩)]
    refine ⟨rfl, by ring, by ring, rfl⟩

/-- Witness for C7: one embedded-drone step at mass 2 with control signal
100 from altitude 50, and one standalone-drone step at mass 10 with
control signal 0 from altitude 50; both stay inside `(0, 100)`. -/
theorem drone_step_force_law_witness :
    (DroneEmbState.mk 50 0 2 50 0 0 false).crashed = false ∧
    (0:ℚ) < (DroneEmbState.mk 50 0 2 50 0 0 false).mass ∧
    ((0:ℚ) < 50 + (0 + (2 * (981/100) + max (-500) (min 500 100)
        - 2 * (981/100)) / 2 * (1/1000)) * (1/1000)) ∧
    ((50:ℚ) + (0 + (2 * (981/100) + max (-500) (min 500 100)
        - 2 * (981/100)) / 2 * (1/1000)) * (1/1000) < 100) ∧
    ((droneEmbStep 100 (DroneEmbState.mk 50 0 2 50 0 0 false)).thrust
        = max (-500) (min 500 100) ∧
     (droneEmbStep 100 (DroneEmbState.mk 50 0 2 50 0 0 false)).velocity
        = 0 + (2 * (981/100) + max (-500) (min 500 100) - 2 * (981/100)) / 2 * (1/1000) ∧
     (droneEmbStep 100 (DroneEmbState.mk 50 0 2 50 0 0 false)).altitude
        = 50 + (0 + (2 * (981/100) + max (-500) (min 500 100)
            - 2 * (981/100)) / 2 * (1/1000)) * (1/1000) ∧
     (droneEmbStep 100 (DroneEmbState.mk 50 0 2 50 0 0 false)).crashed = false) ∧
    ((droneSStep ⟨50, 20, 1/10, 10, 1/20⟩ SetpointMode.constant 0
        (DroneSState.mk 50 0 10 50 0 0 false)).thrust = max (-2000) (min 2000 0) ∧
     (droneSStep ⟨50, 20, 1/10, 10, 1/20⟩ SetpointMode.constant 0
        (DroneSState.mk 50 0 10 50 0 0 false)).velocity
        = 0 + (0 + max (-2000) (min 2000 0) - 10 * (981/100)) / 10 * (1/1000) ∧
     (droneSStep ⟨50, 20, 1/10, 10, 1/20⟩ SetpointMode.constant 0
        (DroneSState.mk 50 0 10 50 0 0 false)).altitude
        = 50 + (0 + (0 + max (-2000) (min 2000 0)
            - 10 * (981/100)) / 10 * (1/1000)) * (1/1000) ∧
     (droneSStep ⟨50, 20, 1/10, 10, 1/20⟩ SetpointMode.constant 0
        (DroneSState.mk 50 0 10 50 0 0 false)).crashed = false) :=
  ⟨rfl, by norm_num, by norm_num, by norm_num,
   drone_step_force_law.1 100 (DroneEmbState.mk 50 0 2 50 0 0 false)
     rfl (by norm_num) (by norm_num) (by norm_num),
   drone_step_force_law.2 ⟨50, 20, 1/10, 10, 1/20⟩ SetpointMode.constant 0
     (DroneSState.mk 50 0 10 50 0 0 false) rfl (by norm_num) (by norm_num)⟩

/-- C6: with the commanded power `P` within the heater bounds, each
thermal-tank step adds `((P - 500 * (T - ambient)) * 0.1) / 6279000` to
the temperature and clamps to `[0, 50]`; the temperature
`A + P / 500` (clamped to `[0, 50]`) is a fixed point of the step; for an
in-range steady state, iterated steps contract the distance to it by the
exact factor `125579/125580` per step, and for every steady state —
including out-of-range targets where the `[0, 50]` clamp takes over —
the distance to the clamped steady state is bounded by the same
geometric factor `125579/125580 < 1` per step (asymptotic approach);
and with `ambient = 20`, `P = 5000` the steady state is `30 °C`. -/
theorem hotTub_steady_state (P A : ℚ) (hP0 : 0 ≤ P) (hP1 : P ≤ 15000) :
    (∀ s : TubState, (hotTubStep P s).temperature
        = max 0 (min 50 (s.temperature
            + (P - 500 * (s.temperature - s.ambient)) * (1/10) / 6279000))) ∧
    (∀ s : TubState, s.ambient = A →
        s.temperature = max 0 (min 50 (A + P / 500)) →
        (hotTubStep P s).temperature = s.temperature) ∧
    (0 ≤ A + P / 500 → A + P / 500 ≤ 50 →
      ∀ s : TubState, s.ambient = A → 0 ≤ s.temperature → s.temperature ≤ 50 →
      ∀ n : ℕ,
        |(hotTubIterate P n s).temperature - (A + P / 500)|
          = (125579/125580 : ℚ) ^ n * |s.temperature - (A + P / 500)|) ∧
    (∀ s : TubState, s.ambient = A → 0 ≤ s.temperature → s.temperature ≤ 50 →
      ∀ n : ℕ,
        |(hotTubIterate P n s).temperature - max 0 (min 50 (A + P / 500))|
          ≤ (125579/125580 : ℚ) ^ n
            * |s.temperature - max 0 (min 50 (A + P / 500))|) ∧
    ((125579/125580 : ℚ) < 1) ∧
    (∀ s : TubState, s.ambient = 20 → s.temperature = 30 →
        (hotTubStep 5000 s).temperature = 30) := by
  have hp : max 0 (min 15000 P) = P := by
    rw [min_eq_right hP1, max_eq_right hP0]
  have key : ∀ s : TubState, (hotTubStep P s).temperature
      = max 0 (min 50 (s.temperature
          + (P - 500 * (s.temperature - s.ambient)) * (1/10) / 6279000)) := by
    intro s
    simp only [hotTubStep, hp]
  refine ⟨key, ?_, ?_, ?_, by norm_num, ?_⟩
  · intro s hA hT
    rw [key s, hA, hT]
    rcases le_or_lt (A + P / 500) 0 with h0 | h0
    · have hT0 : max 0 (min 50 (A + P / 500)) = 0 := by
        rw [min_eq_right (by linarith), max_eq_left h0]
      rw [hT0]
      have hin : (0:ℚ) + (P - 500 * (0 - A)) * (1/10) / 6279000 ≤ 0 := by nlinarith
      rw [min_eq_right (by linarith), max_eq_left hin]
    · rcases le_or_lt (A + P / 500) 50 with h50 | h50
      · have hT0 : max 0 (min 50 (A + P / 500)) = A + P / 500 := by
          rw [min_eq_right h50, max_eq_right h0.le]
        rw [hT0]
        have hz : (A + P / 500) + (P - 500 * ((A + P / 500) - A)) * (1/10) / 6279000
            = A + P / 500 := by ring
        rw [hz, min_eq_right h50, max_eq_right h0.le]
      · have hT0 : max 0 (min 50 (A + P / 500)) = 50 := by
          rw [min_eq_left h50.le, max_eq_right (by norm_num)]
        rw [hT0]
        have hin : (50:ℚ) ≤ 50 + (P - 500 * (50 - A)) * (1/10) / 6279000 := by nlinarith
        rw [min_eq_left hin, max_eq_right (by norm_num)]
  · intro hq0 hq50 s hA hT0 hT50 n
    have onestep : ∀ s' : TubState, s'.ambient = A →
        0 ≤ s'.temperature → s'.temperature ≤ 50 →
        (hotTubStep P s').temperature
          = s'.temperature + ((A + P / 500) - s'.temperature) / 125580 := by
      intro s' hA' h0' h50'
      rw [key s', hA']
      have h1 : s'.temperature + (P - 500 * (s'.temperature - A)) * (1/10) / 6279000
          = s'.temperature + ((A + P / 500) - s'.temperature) / 125580 := by ring
      rw [h1]
      have hlo : 0 ≤ s'.temperature + ((A + P / 500) - s'.temperature) / 125580 := by
        linarith
      have hhi : s'.temperature + ((A + P / 500) - s'.temperature) / 125580 ≤ 50 := by
        linarith
      rw [min_eq_right hhi, max_eq_right hlo]
    have strong : ∀ m : ℕ,
        0 ≤ (hotTubIterate P m s).temperature ∧
        (hotTubIterate P m s).temperature ≤ 50 ∧
        (hotTubIterate P m s).ambient = A ∧
        |(hotTubIterate P m s).temperature - (A + P / 500)|
          = (125579/125580 : ℚ) ^ m * |s.temperature - (A + P / 500)| := by
      intro m
      induction m with
      | zero => exact ⟨hT0, hT50, hA, by simp [hotTubIterate]⟩
      | succ m ih =>
          obtain ⟨ih0, ih50, ihA, ihd⟩ := ih
          have hstep : hotTubIterate P (m + 1) s
              = hotTubStep P (hotTubIterate P m s) := by
            simp [hotTubIterate, Function.iterate_succ_apply']
          have htemp : (hotTubIterate P (m + 1) s).temperature
              = (hotTubIterate P m s).temperature
                + ((A + P / 500) - (hotTubIterate P m s).temperature) / 125580 := by
            rw [hstep, onestep _ ihA ih0 ih50]
          have hamb : (hotTubIterate P (m + 1) s).ambient = A := by
            rw [hstep]
            exact ihA
          refine ⟨by rw [htemp]; linarith, by rw [htemp]; linarith, hamb, ?_⟩
          have hdist : (hotTubIterate P (m + 1) s).temperature - (A + P / 500)
              = (125579/125580 : ℚ)
                * ((hotTubIterate P m s).temperature - (A + P / 500)) := by
            rw [htemp]
            ring
          rw [hdist, abs_mul, abs_of_pos (by norm_num : (0:ℚ) < 125579/125580), ihd,
            pow_succ]
          ring
    exact (strong n).2.2.2
  · intro s hA hT0 hT50 n
    have contract : ∀ T Q : ℚ, 0 ≤ T → T ≤ 50 →
        0 ≤ max 0 (min 50 (T + (Q - T) / 125580)) ∧
        max 0 (min 50 (T + (Q - T) / 125580)) ≤ 50 ∧
        |max 0 (min 50 (T + (Q - T) / 125580)) - max 0 (min 50 Q)|
          ≤ (125579/125580 : ℚ) * |T - max 0 (min 50 Q)| := by
      intro T Q hT0' hT50'
      refine ⟨le_max_left 0 _, max_le (by norm_num) (min_le_left _ _), ?_⟩
      rcases le_or_lt 0 Q with hq0 | hq0
      · rcases le_or_lt Q 50 with hq50 | hq50
        · have hTstar : max 0 (min 50 Q) = Q := by
            rw [min_eq_right hq50, max_eq_right hq0]
          have hv0 : 0 ≤ T + (Q - T) / 125580 := by linarith
          have hv50 : T + (Q - T) / 125580 ≤ 50 := by linarith
          rw [hTstar, min_eq_right hv50, max_eq_right hv0]
          have hvq : T + (Q - T) / 125580 - Q = (125579/125580 : ℚ) * (T - Q) := by
            ring
          rw [hvq, abs_mul, abs_of_pos (by norm_num : (0:ℚ) < 125579/125580)]
        · have hTstar : max 0 (min 50 Q) = 50 := by
            rw [min_eq_left hq50.le, max_eq_right (by norm_num)]
          have hv0 : 0 ≤ T + (Q - T) / 125580 := by linarith
          have hmax : max 0 (min 50 (T + (Q - T) / 125580))
              = min 50 (T + (Q - T) / 125580) :=
            max_eq_right (le_min (by norm_num) hv0)
          rw [hTstar, hmax]
          have habs1 : |min 50 (T + (Q - T) / 125580) - 50|
              = 50 - min 50 (T + (Q - T) / 125580) := by
            rw [abs_of_nonpos (sub_nonpos.mpr (min_le_left _ _))]
            ring
          have habs2 : |T - 50| = 50 - T := by
            rw [abs_of_nonpos (by linarith)]
            ring
          rw [habs1, habs2]
          rcases le_or_lt 50 (T + (Q - T) / 125580) with hv50 | hv50
          · rw [min_eq_left hv50]
            nlinarith
          · rw [min_eq_right hv50.le]
            linarith
      · have hTstar : max 0 (min 50 Q) = 0 := by
          rw [min_eq_right (by linarith), max_eq_left (by linarith)]
        have hv50 : T + (Q - T) / 125580 ≤ 50 := by linarith
        have hmin : min 50 (T + (Q - T) / 125580) = T + (Q - T) / 125580 :=
          min_eq_right hv50
        rw [hTstar, hmin, sub_zero, sub_zero,
          abs_of_nonneg (le_max_left 0 _), abs_of_nonneg hT0']
        rcases le_or_lt (T + (Q - T) / 125580) 0 with hv0 | hv0
        · rw [max_eq_left hv0]
          nlinarith
        · rw [max_eq_right hv0.le]
          linarith
    have onestep2 : ∀ s' : TubState, s'.ambient = A →
        0 ≤ s'.temperature → s'.temperature ≤ 50 →
        0 ≤ (hotTubStep P s').temperature ∧
        (hotTubStep P s').temperature ≤ 50 ∧
        |(hotTubStep P s').temperature - max 0 (min 50 (A + P / 500))|
          ≤ (125579/125580 : ℚ)
            * |s'.temperature - max 0 (min 50 (A + P / 500))| := by
      intro s' hA' h0' h50'
      have h1 : s'.temperature + (P - 500 * (s'.temperature - A)) * (1/10) / 6279000
          = s'.temperature + ((A + P / 500) - s'.temperature) / 125580 := by
        ring
      rw [key s', hA', h1]
      exact contract s'.temperature (A + P / 500) h0' h50'
    have strong2 : ∀ m : ℕ,
        0 ≤ (hotTubIterate P m s).temperature ∧
        (hotTubIterate P m s).temperature ≤ 50 ∧
        (hotTubIterate P m s).ambient = A ∧
        |(hotTubIterate P m s).temperature - max 0 (min 50 (A + P / 500))|
          ≤ (125579/125580 : ℚ) ^ m
            * |s.temperature - max 0 (min 50 (A + P / 500))| := by
      intro m
      induction m with
      | zero => exact ⟨hT0, hT50, hA, by simp [hotTubIterate]⟩
      | succ m ih =>
          obtain ⟨ih0, ih50, ihA, ihd⟩ := ih
          have hstep : hotTubIterate P (m + 1) s
              = hotTubStep P (hotTubIterate P m s) := by
            simp [hotTubIterate, Function.iterate_succ_apply']
          obtain ⟨hs0, hs50, hsle⟩ := onestep2 _ ihA ih0 ih50
          refine ⟨by rw [hstep]; exact hs0, by rw [hstep]; exact hs50,
            by rw [hstep]; exact ihA, ?_⟩
          calc |(hotTubIterate P (m + 1) s).temperature
                - max 0 (min 50 (A + P / 500))|
              = |(hotTubStep P (hotTubIterate P m s)).temperature
                  - max 0 (min 50 (A + P / 500))| := by
                rw [hstep]
            _ ≤ (125579/125580 : ℚ)
                  * |(hotTubIterate P m s).temperature
                      - max 0 (min 50 (A + P / 500))| := hsle
            _ ≤ (125579/125580 : ℚ)
                  * ((125579/125580 : ℚ) ^ m
                      * |s.temperature - max 0 (min 50 (A + P / 500))|) :=
                mul_le_mul_of_nonneg_left ihd (by norm_num)
            _ = (125579/125580 : ℚ) ^ (m + 1)
                  * |s.temperature - max 0 (min 50 (A + P / 500))| := by
                ring
    exact (strong2 n).2.2.2
  · intro s h1 h2
    simp only [hotTubStep, h1, h2]
    norm_num

/-- Witness for C6 at `P = 5000`, `ambient = 20`, initial temperature 40
and three iterated steps, plus the clamped-target case `P = 15000`,
`ambient = 35` (unclamped target 65, clamped steady state 50) over two
iterated steps. -/
theorem hotTub_steady_state_witness :
    (0:ℚ) ≤ 5000 ∧ (5000:ℚ) ≤ 15000 ∧
    (0:ℚ) ≤ 20 + 5000 / 500 ∧ (20:ℚ) + 5000 / 500 ≤ 50 ∧
    (TubState.mk 40 38 20 0 0).ambient = 20 ∧
    (0:ℚ) ≤ (TubState.mk 40 38 20 0 0).temperature ∧
    (TubState.mk 40 38 20 0 0).temperature ≤ 50 ∧
    |(hotTubIterate 5000 3 (TubState.mk 40 38 20 0 0)).temperature - (20 + 5000 / 500)|
      = (125579/125580 : ℚ) ^ 3 * |(TubState.mk 40 38 20 0 0).temperature - (20 + 5000 / 500)| ∧
    (0:ℚ) ≤ 15000 ∧ (15000:ℚ) ≤ 15000 ∧
    (TubState.mk 40 38 35 0 0).ambient = 35 ∧
    |(hotTubIterate 15000 2 (TubState.mk 40 38 35 0 0)).temperature
        - max 0 (min 50 (35 + 15000 / 500))|
      ≤ (125579/125580 : ℚ) ^ 2
        * |(TubState.mk 40 38 35 0 0).temperature - max 0 (min 50 (35 + 15000 / 500))| :=
  ⟨by norm_num, by norm_num, by norm_num, by norm_num, rfl, by norm_num, by norm_num,
   (hotTub_steady_state 5000 20 (by norm_num) (by norm_num)).2.2.1
     (by norm_num) (by norm_num) (TubState.mk 40 38 20 0 0) rfl
     (by norm_num) (by norm_num) 3,
   by norm_num, by norm_num, rfl,
   (hotTub_steady_state 15000 35 (by norm_num) (by norm_num)).2.2.2.1
     (TubState.mk 40 38 35 0 0) rfl (by norm_num) (by norm_num) 2⟩

/-! ### Lemmas about the derivative FIFO -/

theorem compute_hist (cfg : PIDConfig) (s : PIDState) (e : ℚ) (g : Gains) (dt : ℚ) :
    ((PIDState.compute cfg s e g dt).1).derivativeHistory
      = pushTrim cfg.derivativeWindowSize s.derivativeHistory
          (if s.initialized then (e - s.prevError) / dt else 0) := rfl

theorem compute_errorD (cfg : PIDConfig) (s : PIDState) (e : ℚ) (g : Gains) (dt : ℚ) :
    ((PIDState.compute cfg s e g dt).2).errorD
      = (pushTrim cfg.derivativeWindowSize s.derivativeHistory
          (if s.initialized then (e - s.prevError) / dt else 0)).sum
        / ((pushTrim cfg.derivativeWindowSize s.derivativeHistory
          (if s.initialized then (e - s.prevError) / dt else 0)).length : ℚ) := rfl

theorem pushTrim_suffix (W : ℕ) (l : List ℚ) (x : ℚ) :
    pushTrim W l x <:+ l ++ [x] := by
  unfold pushTrim
  dsimp only
  split
  · exact List.tail_suffix _
  · exact List.suffix_refl _

theorem pushTrim_length (W : ℕ) (l : List ℚ) (x : ℚ) (hl : l.length ≤ W) :
    (pushTrim W l x).length = min (l.length + 1) W := by
  unfold pushTrim
  dsimp only
  split <;> simp_all <;> omega

theorem foldl_pushTrim_suffix (W : ℕ) :
    ∀ (xs l : List ℚ), List.foldl (pushTrim W) l xs <:+ l ++ xs := by
  intro xs
  induction xs with
  | nil => intro l; simpa using List.suffix_refl l
  | cons x xs ih =>
      intro l
      have h1 := ih (pushTrim W l x)
      have h2 : pushTrim W l x ++ xs <:+ (l ++ [x]) ++ xs := by
        obtain ⟨t, ht⟩ := pushTrim_suffix W l x
        exact ⟨t, by rw [← List.append_assoc, ht]⟩
      have h3 : (l ++ [x]) ++ xs = l ++ (x :: xs) := by simp
      rw [h3] at h2
      exact (h1.trans h2)

theorem foldl_pushTrim_length (W : ℕ) :
    ∀ (xs l : List ℚ), l.length ≤ W →
      (List.foldl (pushTrim W) l xs).length = min (l.length + xs.length) W := by
  intro xs
  induction xs with
  | nil => intro l hl; simpa using by omega
  | cons x xs ih =>
      intro l hl
      have h1 : (pushTrim W l x).length = min (l.length + 1) W :=
        pushTrim_length W l x hl
      have h2 : (pushTrim W l x).length ≤ W := by omega
      rw [List.foldl_cons, ih (pushTrim W l x) h2, h1]
      simp only [List.length_cons]
      omega

theorem suffix_zero_of_short (v : List ℚ) (n : ℕ) (u : List ℚ)
    (hs : u <:+ v ++ List.replicate n (0:ℚ)) (hl : u.length ≤ n) :
    ∀ y ∈ u, y = 0 := by
  obtain ⟨t, ht⟩ := hs
  have hlen : t.length + u.length = v.length + n := by
    have := congrArg List.length ht
    simpa using this
  have hu : u = (v ++ List.replicate n (0:ℚ)).drop t.length := by
    rw [← ht, List.drop_left]
  have hsplit : t.length = v.length + (t.length - v.length) := by omega
  rw [hu, hsplit, List.drop_append, List.drop_replicate]
  intro y hy
  exact List.eq_of_mem_replicate hy

theorem pidIterate_succ (cfg : PIDConfig) (e : ℚ) (g : Gains) (dt : ℚ) (n : ℕ)
    (s : PIDState) :
    pidIterate cfg e g dt (n + 1) s
      = (PIDState.compute cfg (pidIterate cfg e g dt n s) e g dt).1 :=
  Function.iterate_succ_apply' _ _ _

theorem pidIterate_spec (cfg : PIDConfig) (e : ℚ) (g : Gains) (dt : ℚ)
    (s : PIDState) :
    ∀ n : ℕ, 1 ≤ n →
      (pidIterate cfg e g dt n s).prevError = e ∧
      (pidIterate cfg e g dt n s).initialized = true ∧
      (pidIterate cfg e g dt n s).derivativeHistory
        = List.foldl (pushTrim cfg.derivativeWindowSize) s.derivativeHistory
            ((if s.initialized then (e - s.prevError) / dt else 0)
              :: List.replicate (n - 1) 0) := by
  intro n
  induction n with
  | zero => omega
  | succ m ih =>
      intro _
      rcases Nat.eq_zero_or_pos m with hm | hm
      · subst hm
        refine ⟨rfl, rfl, ?_⟩
        rw [pidIterate_succ, compute_hist]
        simp [pidIterate]
      · obtain ⟨ihP, ihI, ihH⟩ := ih hm
        rw [pidIterate_succ]
        refine ⟨rfl, rfl, ?_⟩
        rw [compute_hist, ihP, ihI, ihH]
        have hz : (if true = true then (e - e) / dt else 0) = 0 := by
          simp
        rw [hz]
        have hfold : pushTrim cfg.derivativeWindowSize
            (List.foldl (pushTrim cfg.derivativeWindowSize) s.derivativeHistory
              ((if s.initialized then (e - s.prevError) / dt else 0)
                :: List.replicate (m - 1) 0)) 0
            = List.foldl (pushTrim cfg.derivativeWindowSize) s.derivativeHistory
              (((if s.initialized then (e - s.prevError) / dt else 0)
                :: List.replicate (m - 1) 0) ++ [0]) := by
          rw [List.foldl_append]
          rfl
        rw [hfold]
        congr 1
        have : List.replicate (m - 1) (0:ℚ) ++ [0] = List.replicate m 0 := by
          have hm1 : m = (m - 1) + 1 := by omega
          rw [hm1, List.replicate_succ']
          simp
        simp [this]

/-- C3 (amended): every compute call appends the raw derivative to the
FIFO, evicts the oldest sample only when the capacity
`derivativeWindowSize` is exceeded, and reports `errorD` as the
arithmetic mean of the samples then held; consequently, once strictly
more than `derivativeWindowSize` consecutive compute calls have used the
same constant error (for any controller whose history length is within
the capacity, as the API maintains), the reported `errorD` is exactly 0,
and for a run starting at a freshly constructed or reset controller,
`errorD` is 0 on every constant-error call — in particular after
`derivativeWindowSize` of them.  After exactly `derivativeWindowSize`
constant-error calls mid-lifetime, one stale pre-constant sample can
still sit in the window (see the counterexample), so the count must
exceed the window size unless the run starts from reset. -/
theorem pid_derivative_window :
    (∀ (cfg : PIDConfig) (s : PIDState) (e : ℚ) (g : Gains) (dt : ℚ),
      ((PIDState.compute cfg s e g dt).1).derivativeHistory
        = pushTrim cfg.derivativeWindowSize s.derivativeHistory
            (if s.initialized then (e - s.prevError) / dt else 0)) ∧
    (∀ (cfg : PIDConfig) (s : PIDState) (e : ℚ) (g : Gains) (dt : ℚ),
      ((PIDState.compute cfg s e g dt).2).errorD
        = (((PIDState.compute cfg s e g dt).1).derivativeHistory).sum
          / ((((PIDState.compute cfg s e g dt).1).derivativeHistory).length : ℚ)) ∧
    (∀ (cfg : PIDConfig) (s : PIDState) (e : ℚ) (g : Gains) (dt : ℚ) (n : ℕ),
      s.derivativeHistory.length ≤ cfg.derivativeWindowSize →
      cfg.derivativeWindowSize ≤ n →
      ((PIDState.compute cfg (pidIterate cfg e g dt n s) e g dt).2).errorD = 0) ∧
    (∀ (cfg : PIDConfig) (e : ℚ) (g : Gains) (dt : ℚ) (n : ℕ),
      ((PIDState.compute cfg (pidIterate cfg e g dt n pidResetState) e g dt).2).errorD
        = 0) := by
  refine ⟨fun cfg s e g dt => rfl, fun cfg s e g dt => rfl, ?hC, ?hD⟩
  case hD =>
    intro cfg e g dt n
    rcases Nat.eq_zero_or_pos n with hn | hn
    · subst hn
      rw [compute_errorD]
      have h0 : pidIterate cfg e g dt 0 pidResetState = pidResetState := rfl
      rw [h0]
      by_cases hW : cfg.derivativeWindowSize < 1 <;>
        simp [pushTrim, pidResetState, hW]
    · obtain ⟨hP, hI, hH⟩ := pidIterate_spec cfg e g dt pidResetState n hn
      rw [compute_errorD, hP, hI, hH]
      have hhist : pidResetState.derivativeHistory = ([] : List ℚ) := rfl
      have hd1 : (if pidResetState.initialized
          then (e - pidResetState.prevError) / dt else 0) = (0:ℚ) := rfl
      rw [hhist, hd1]
      have hz : (if true = true then (e - e) / dt else 0) = (0:ℚ) := by simp
      rw [hz]
      have hfold : pushTrim cfg.derivativeWindowSize
          (List.foldl (pushTrim cfg.derivativeWindowSize) []
            ((0:ℚ) :: List.replicate (n - 1) 0)) 0
          = List.foldl (pushTrim cfg.derivativeWindowSize) []
            ((0:ℚ) :: List.replicate n 0) := by
        rw [show ((0:ℚ) :: List.replicate n (0:ℚ))
              = ((0:ℚ) :: List.replicate (n - 1) 0) ++ [0] from ?_]
        · rw [List.foldl_append]
          rfl
        · have hn1 : n = (n - 1) + 1 := by omega
          rw [hn1, List.replicate_succ']
          simp
      rw [hfold]
      have hsuffix : List.foldl (pushTrim cfg.derivativeWindowSize) []
          ((0:ℚ) :: List.replicate n 0) <:+ List.replicate (n + 1) (0:ℚ) := by
        have h1 := foldl_pushTrim_suffix cfg.derivativeWindowSize
          ((0:ℚ) :: List.replicate n 0) []
        simpa [List.replicate_succ] using h1
      have hzero : ∀ y ∈ List.foldl (pushTrim cfg.derivativeWindowSize) []
          ((0:ℚ) :: List.replicate n 0), y = 0 :=
        fun y hy => List.eq_of_mem_replicate (hsuffix.subset hy)
      rw [List.sum_eq_zero hzero, zero_div]
  intro cfg s e g dt n hlen hWn
  rcases Nat.eq_zero_or_pos n with hn | hn
  · subst hn
    have hW : cfg.derivativeWindowSize = 0 := by omega
    have hnil : s.derivativeHistory = [] := by
      rw [← List.length_eq_zero]
      omega
    rw [compute_errorD]
    have : pidIterate cfg e g dt 0 s = s := rfl
    rw [this, hnil, hW]
    simp [pushTrim]
  · obtain ⟨hP, hI, hH⟩ := pidIterate_spec cfg e g dt s n hn
    rw [compute_errorD, hP, hI, hH]
    have hz : (if true = true then (e - e) / dt else 0) = 0 := by simp
    rw [hz]
    set d1 := if s.initialized then (e - s.prevError) / dt else 0 with hd1
    have hfold : pushTrim cfg.derivativeWindowSize
        (List.foldl (pushTrim cfg.derivativeWindowSize) s.derivativeHistory
          (d1 :: List.replicate (n - 1) 0)) 0
        = List.foldl (pushTrim cfg.derivativeWindowSize) s.derivativeHistory
          (d1 :: List.replicate n 0) := by
      rw [show (d1 :: List.replicate n (0:ℚ))
            = (d1 :: List.replicate (n - 1) 0) ++ [0] from ?_]
      · rw [List.foldl_append]
        rfl
      · have hn1 : n = (n - 1) + 1 := by omega
        rw [hn1, List.replicate_succ']
        simp
    rw [hfold]
    set fl := List.foldl (pushTrim cfg.derivativeWindowSize) s.derivativeHistory
      (d1 :: List.replicate n 0) with hfl
    have hsuffix : fl <:+ (s.derivativeHistory ++ [d1]) ++ List.replicate n 0 := by
      have h1 := foldl_pushTrim_suffix cfg.derivativeWindowSize
        (d1 :: List.replicate n 0) s.derivativeHistory
      have h2 : s.derivativeHistory ++ (d1 :: List.replicate n 0)
          = (s.derivativeHistory ++ [d1]) ++ List.replicate n 0 := by simp
      rwa [h2] at h1
    have hlenfl : fl.length ≤ n := by
      have := foldl_pushTrim_length cfg.derivativeWindowSize
        (d1 :: List.replicate n 0) s.derivativeHistory hlen
      rw [← hfl] at this
      simp only [List.length_cons, List.length_replicate] at this
      omega
    have hzero : ∀ y ∈ fl, y = 0 :=
      suffix_zero_of_short (s.derivativeHistory ++ [d1]) n fl hsuffix hlenfl
    rw [List.sum_eq_zero hzero, zero_div]

/-- Witness for C3's constant-error consequences: six constant-error
calls (one more than the default window size 5) on a freshly reset
controller, and the fifth (window-sized) constant-error call of a run
starting at reset. -/
theorem pid_derivative_window_witness :
    pidResetState.derivativeHistory.length ≤ 5 ∧ (5:ℕ) ≤ 5 ∧
    ((PIDState.compute ⟨none, none, 5⟩
        (pidIterate ⟨none, none, 5⟩ 3 ⟨2, 1, 1⟩ 1 5 pidResetState)
        3 ⟨2, 1, 1⟩ 1).2).errorD = 0 ∧
    ((PIDState.compute ⟨none, none, 5⟩
        (pidIterate ⟨none, none, 5⟩ 3 ⟨2, 1, 1⟩ 1 4 pidResetState)
        3 ⟨2, 1, 1⟩ 1).2).errorD = 0 :=
  ⟨by simp [pidResetState], le_refl 5,
   pid_derivative_window.2.2.1 ⟨none, none, 5⟩ pidResetState 3 ⟨2, 1, 1⟩ 1 5
     (by simp [pidResetState]) (le_refl 5),
   pid_derivative_window.2.2.2 ⟨none, none, 5⟩ 3 ⟨2, 1, 1⟩ 1 4⟩

/-- Counterexample for C3 as stated: on a controller whose first call used
error 0, five consecutive constant-error-5 calls (exactly the window
size) still leave `errorD = 1`, not 0 — the pre-constant raw derivative
sample is still inside the 5-slot window. -/
theorem pid_derivative_window_counterexample :
    ((PIDState.compute ⟨none, none, 5⟩
        (pidIterate ⟨none, none, 5⟩ 5 ⟨1, 1, 1⟩ 1 4
          ((PIDState.compute ⟨none, none, 5⟩ pidResetState 0 ⟨1, 1, 1⟩ 1).1))
        5 ⟨1, 1, 1⟩ 1).2).errorD ≠ 0 := by
  norm_num [pidIterate, Function.iterate_succ, Function.iterate_zero, Function.comp,
    PIDState.compute, pidResetState, jsMaxOpt, jsMinOpt]

/-! ### Lemmas about the fixed-step accumulator loop -/

theorem floor_toNat_dec (dtMs acc : ℚ) (hdt : 0 < dtMs) (h : dtMs ≤ acc) :
    (⌊(acc - dtMs) / dtMs⌋).toNat < (⌊acc / dtMs⌋).toNat := by
  have h1 : (acc - dtMs) / dtMs = acc / dtMs - 1 := by
    rw [sub_div, div_self hdt.ne']
  have h2 : (1 : ℚ) ≤ acc / dtMs := (one_le_div hdt).mpr h
  have h3 : (1 : ℤ) ≤ ⌊acc / dtMs⌋ := by
    exact_mod_cast Int.le_floor.mpr (by exact_mod_cast h2)
  rw [h1, Int.floor_sub_one]
  omega

theorem drainLoop_leftover {S : Type} (dtMs : ℚ) (hdt : 0 < dtMs)
    (step : ℕ → S → S) :
    ∀ (n k : ℕ) (acc : ℚ) (s : S), (⌊acc / dtMs⌋).toNat ≤ n →
      (drainLoop dtMs hdt step k acc s).2.1 < dtMs := by
  intro n
  induction n with
  | zero =>
      intro k acc s hle
      rw [drainLoop]
      split
      · next h => exact absurd hle (by have := floor_toNat_dec dtMs acc hdt h; omega)
      · next h => exact lt_of_not_le h
  | succ n ih =>
      intro k acc s hle
      rw [drainLoop]
      split
      · next h =>
          exact ih _ _ _ (by have := floor_toNat_dec dtMs acc hdt h; omega)
      · next h => exact lt_of_not_le h

theorem drainLoop_add {S : Type} (dtMs : ℚ) (hdt : 0 < dtMs)
    (step : ℕ → S → S) (e : ℚ) (he : 0 ≤ e) :
    ∀ (n k : ℕ) (acc : ℚ) (s : S), (⌊acc / dtMs⌋).toNat ≤ n →
      drainLoop dtMs hdt step k (acc + e) s
        = (fun r => drainLoop dtMs hdt step r.1 (r.2.1 + e) r.2.2)
            (drainLoop dtMs hdt step k acc s) := by
  intro n
  induction n with
  | zero =>
      intro k acc s hle
      have hnot : ¬ dtMs ≤ acc := by
        intro h
        exact absurd hle (by have := floor_toNat_dec dtMs acc hdt h; omega)
      conv_rhs => rw [drainLoop]
      rw [dif_neg hnot]
  | succ n ih =>
      intro k acc s hle
      by_cases h : dtMs ≤ acc
      · have he2 : dtMs ≤ acc + e := by linarith
        conv_lhs => rw [drainLoop]
        conv_rhs => rw [drainLoop]
        rw [dif_pos h, dif_pos he2]
        have harg : acc + e - dtMs = (acc - dtMs) + e := by ring
        rw [harg]
        exact ih _ _ _ (by have := floor_toNat_dec dtMs acc hdt h; omega)
      · conv_rhs => rw [drainLoop]
        rw [dif_neg h]

theorem runFrames_drain {S : Type} (dtMs : ℚ) (hdt : 0 < dtMs)
    (step : ℕ → S → S) (timeScale : ℚ) (hts : 0 ≤ timeScale) :
    ∀ (deltas : List ℚ), (∀ d ∈ deltas, 0 ≤ d ∧ d ≤ 50) →
    ∀ (k : ℕ) (acc : ℚ) (s : S), acc < dtMs →
      runFrames dtMs hdt step timeScale deltas (k, acc, s)
        = drainLoop dtMs hdt step k (acc + deltas.sum * timeScale) s := by
  intro deltas
  induction deltas with
  | nil =>
      intro _ k acc s hacc
      simp only [runFrames, List.foldl_nil, List.sum_nil, zero_mul, add_zero]
      rw [drainLoop, dif_neg (not_le.mpr hacc)]
  | cons d ds ih =>
      intro hmem k acc s hacc
      have hd := hmem d (List.mem_cons_self d ds)
      have hcap : min d 50 = d := min_eq_left hd.2
      have hds : ∀ x ∈ ds, 0 ≤ x ∧ x ≤ 50 :=
        fun x hx => hmem x (List.mem_cons_of_mem d hx)
      have hsum0 : 0 ≤ ds.sum * timeScale :=
        mul_nonneg (List.sum_nonneg fun x hx => (hds x hx).1) hts
      have hstep1 : runFrames dtMs hdt step timeScale (d :: ds) (k, acc, s)
          = runFrames dtMs hdt step timeScale ds
              (drainLoop dtMs hdt step k (acc + d * timeScale) s) := by
        simp only [runFrames, List.foldl_cons, frameUpdate, hcap]
      rw [hstep1]
      have hleft : (drainLoop dtMs hdt step k (acc + d * timeScale) s).2.1 < dtMs :=
        drainLoop_leftover dtMs hdt step _ k _ s (le_refl _)
      have hih := ih hds (drainLoop dtMs hdt step k (acc + d * timeScale) s).1
        (drainLoop dtMs hdt step k (acc + d * timeScale) s).2.1
        (drainLoop dtMs hdt step k (acc + d * timeScale) s).2.2 hleft
      have hadd := drainLoop_add dtMs hdt step (ds.sum * timeScale) hsum0
        (⌊(acc + d * timeScale) / dtMs⌋).toNat k (acc + d * timeScale) s (le_refl _)
      have harg : acc + (d :: ds).sum * timeScale
          = (acc + d * timeScale) + ds.sum * timeScale := by
        rw [List.sum_cons]
        ring
      refine hih.trans ?_
      rw [harg]
      exact hadd.symm

/-- C5: the fixed-step accumulator loop is frame-rate independent — for
any positive physics timestep (in ms) and nonnegative time scale, feeding
a sequence of nonnegative frame deltas whose total stays at or below the
50 ms stall cap produces exactly the same result (number of executed
physics steps, per-step tick indices, leftover accumulator and final
state) as feeding their sum in a single frame. -/
theorem frame_rate_independence {S : Type} (dtMs : ℚ) (hdt : 0 < dtMs)
    (step : ℕ → S → S) (timeScale : ℚ) (hts : 0 ≤ timeScale)
    (deltas : List ℚ) (hpos : ∀ d ∈ deltas, 0 ≤ d) (hsum : deltas.sum ≤ 50)
    (k : ℕ) (s : S) :
    runFrames dtMs hdt step timeScale deltas (k, 0, s)
      = frameUpdate dtMs hdt step timeScale (k, 0, s) deltas.sum := by
  have hd50 : ∀ d ∈ deltas, 0 ≤ d ∧ d ≤ 50 := fun d hd =>
    ⟨hpos d hd, (List.single_le_sum hpos d hd).trans hsum⟩
  rw [runFrames_drain dtMs hdt step timeScale hts deltas hd50 k 0 s hdt]
  unfold frameUpdate
  rw [min_eq_left hsum]

/-- Witness for C5: three 16 ms frames versus one 48 ms frame, with
timestep 10 ms, over a state that records every tick index. -/
theorem frame_rate_independence_witness :
    ((0:ℚ) < 10) ∧ ((0:ℚ) ≤ 1) ∧ (∀ d ∈ [(16:ℚ), 16, 16], 0 ≤ d) ∧
    ([(16:ℚ), 16, 16].sum ≤ 50) ∧
    runFrames 10 (by norm_num) (fun k n => n + k + 1) 1 [16, 16, 16] (0, 0, 0)
      = frameUpdate 10 (by norm_num) (fun k n => n + k + 1) 1 (0, 0, 0)
          ([(16:ℚ), 16, 16].sum) :=
  ⟨by norm_num, by norm_num, by intro d hd; fin_cases hd <;> norm_num,
   by norm_num,
   frame_rate_independence 10 (by norm_num) (fun k n => n + k + 1) 1 (by norm_num)
     [16, 16, 16] (by intro d hd; fin_cases hd <;> norm_num) (by norm_num) 0 0⟩

/-! ### Lemmas about angle normalization and the pendulum classifiers -/

theorem normUp_eq_self (θ : ℝ) (h : θ ≤ Real.pi) : normUp θ = θ := by
  rw [normUp, dif_neg (not_lt.mpr h)]

theorem normDown_eq_self (θ : ℝ) (h : -Real.pi ≤ θ) : normDown θ = θ := by
  rw [normDown, dif_neg (not_lt.mpr h)]

theorem normalizeAngle_eq_self (θ : ℝ) (h1 : -Real.pi ≤ θ) (h2 : θ ≤ Real.pi) :
    normalizeAngle θ = θ := by
  unfold normalizeAngle
  rw [normUp_eq_self θ h2, normDown_eq_self θ h1]

theorem pendIntegrateS_x_eq (force floorTilt noise : ℝ) (s : PendState) :
    (pendIntegrateS force floorTilt noise s).x
      = s.x + (pendIntegrateS force floorTilt noise s).xDot * (1/1000) := rfl

theorem pendStepS_cases (force floorTilt noise : ℝ) (s : PendState) :
    pendStepS force floorTilt noise false s
      = if 20 / 2 - 1/5 < |(pendIntegrateS force floorTilt noise s).x| then
          (some PendFailure.crashed, pendIntegrateS force floorTilt noise s)
        else if Real.pi / 2 < |(pendIntegrateS force floorTilt noise s).theta| then
          (some PendFailure.fallen, pendIntegrateS force floorTilt noise s)
        else (none, pendIntegrateS force floorTilt noise s) := by
  rw [pendStepS]
  simp only [Bool.false_eq_true, if_false]

theorem abs_sign_mul_le (x c : ℝ) (hc : 0 ≤ c) : |Real.sign x * c| ≤ c := by
  rw [abs_mul]
  have h1 : |Real.sign x| ≤ 1 := by
    rcases lt_trichotomy x 0 with h | h | h
    · simp [Real.sign_of_neg h]
    · simp [h, Real.sign_zero]
    · simp [Real.sign_of_pos h]
  calc |Real.sign x| * |c| ≤ 1 * |c| := by
        have := abs_nonneg c
        nlinarith
    _ = c := by rw [one_mul, abs_of_nonneg hc]

/-- C8 (amended): in the standalone cart-pendulum, a non-terminal step
reports `crashed` exactly when the post-integration cart position
satisfies `|x| > trackWidth / 2 - 0.2` (this check runs first), reports
`fallen` exactly when the post-integration normalized angle satisfies
`|θ| > π / 2` AND the track-limit condition does not hold, and the
track-limit check only classifies — the returned position is always the
Euler-integrated one, never clamped.  The hook-embedded cart-pendulum
variant instead never crashes: it marks `fallen` exactly when
`|θ| > π / 2` and bounces at the track limit, clamping `|x|` to
`trackWidth / 2 - 0.2` and reflecting the velocity. -/
theorem pend_terminal_classification :
    (∀ (force floorTilt noise : ℝ) (s : PendState),
      ((pendStepS force floorTilt noise false s).1 = some PendFailure.crashed
          ↔ 20 / 2 - 1/5 < |(pendStepS force floorTilt noise false s).2.x|) ∧
      ((pendStepS force floorTilt noise false s).1 = some PendFailure.fallen
          ↔ (Real.pi / 2 < |(pendStepS force floorTilt noise false s).2.theta| ∧
             ¬ (20 / 2 - 1/5 < |(pendStepS force floorTilt noise false s).2.x|))) ∧
      (pendStepS force floorTilt noise false s).2.x
        = s.x + (pendStepS force floorTilt noise false s).2.xDot * (1/1000)) ∧
    (∀ (force noise : ℝ) (s : HookPendState), s.fallen = false →
      ((hookPendStep force noise s).fallen = true
          ↔ Real.pi / 2 < |(hookPendStep force noise s).theta|) ∧
      |(hookPendStep force noise s).x| ≤ 10 / 2 - 1/5) := by
  constructor
  · intro force floorTilt noise s
    rw [pendStepS_cases]
    by_cases h1 : 20 / 2 - 1/5 < |(pendIntegrateS force floorTilt noise s).x| <;>
      by_cases h2 : Real.pi / 2 < |(pendIntegrateS force floorTilt noise s).theta| <;>
      simp only [h1, h2, if_pos, if_neg, if_true, if_false, not_true, not_false_iff,
        Option.some.injEq] <;>
      refine ⟨by simp_all, by simp_all, pendIntegrateS_x_eq force floorTilt noise s⟩
  · intro force noise s hf
    simp only [hookPendStep, hf, Bool.false_eq_true, if_false]
    constructor
    · split <;> simp_all
    · split
      · exact abs_sign_mul_le _ _ (by norm_num)
      · next h => exact le_of_not_lt h

/-- Witness for C8: a freshly reset hook-embedded pendulum state (fallen
flag clear) nudged with a 50 N force satisfies the fallen-iff-angle
characterization and the bounced track bound. -/
theorem pend_terminal_classification_witness :
    (hookPendReset 0).fallen = false ∧
    (((hookPendStep 50 0 (hookPendReset 0)).fallen = true
        ↔ Real.pi / 2 < |(hookPendStep 50 0 (hookPendReset 0)).theta|) ∧
     |(hookPendStep 50 0 (hookPendReset 0)).x| ≤ 10 / 2 - 1/5) :=
  ⟨rfl, pend_terminal_classification.2 50 0 (hookPendReset 0) rfl⟩

/-- Counterexample for C8 as stated: from state
`(θ, θ', x, x') = (0, 1600, 9.7, 200)` a single standalone step drives the
normalized angle past `π/2` (to about 1.6 rad) yet the reported failure
is `crashed`, not `fallen` — so "fallen exactly when `|θ| > π/2`" fails. -/
theorem pend_classification_counterexample :
    (pendStepS 0 0 0 false
        (PendState.mk 0 1600 (97/10) 200 0 0 0)).1 = some PendFailure.crashed ∧
    Real.pi / 2
      < |(pendStepS 0 0 0 false (PendState.mk 0 1600 (97/10) 200 0 0 0)).2.theta| := by
  have hx : (pendIntegrateS 0 0 0 (PendState.mk 0 1600 (97/10) 200 0 0 0)).x
      = 2629684/265625 := by
    simp only [pendIntegrateS]
    norm_num [Real.sin_zero, Real.cos_zero]
  have hth : (pendIntegrateS 0 0 0 (PendState.mk 0 1600 (97/10) 200 0 0 0)).theta
      = normalizeAngle (679997/425000 : ℝ) := by
    simp only [pendIntegrateS]
    norm_num [Real.sin_zero, Real.cos_zero]
  have hval : normalizeAngle (679997/425000 : ℝ) = 679997/425000 := by
    have h := Real.pi_gt_d6
    refine normalizeAngle_eq_self _ (by norm_num at h ⊢; linarith) ?_
    norm_num at h ⊢
    linarith
  have hxgt : (20:ℝ) / 2 - 1/5
      < |(pendIntegrateS 0 0 0 (PendState.mk 0 1600 (97/10) 200 0 0 0)).x| := by
    rw [hx, abs_of_pos (by norm_num)]
    norm_num
  have hthgt : Real.pi / 2
      < |(pendIntegrateS 0 0 0 (PendState.mk 0 1600 (97/10) 200 0 0 0)).theta| := by
    rw [hth, hval, abs_of_pos (by norm_num)]
    have h := Real.pi_lt_d2
    norm_num at h ⊢
    linarith
  constructor
  · rw [pendStepS_cases, if_pos hxgt]
  · rw [pendStepS_cases, if_pos hxgt]
    exact hthgt

/-- C10: in the standalone cart-pendulum step, the track-limit check runs
before the fallen-angle check and returns immediately, so whenever one
step pushes both the cart position past `trackWidth / 2 - 0.2` and the
normalized angle past `π / 2`, the reported failure is `crashed`, never
`fallen`. -/
theorem pend_crash_priority (force floorTilt noise : ℝ) (s : PendState)
    (hx : 20 / 2 - 1/5 < |(pendIntegrateS force floorTilt noise s).x|)
    (hθ : Real.pi / 2 < |(pendIntegrateS force floorTilt noise s).theta|) :
    (pendStepS force floorTilt noise false s).1 = some PendFailure.crashed := by
  rw [pendStepS_cases, if_pos hx]

/-- Witness for C10: from `(θ, θ', x, x') = (0, 1700, 9.75, 200)` a single
step exceeds both the track limit (x ≈ 9.95) and the fallen angle
(θ ≈ 1.7 rad), and the step reports `crashed`. -/
theorem pend_crash_priority_witness :
    ((20:ℝ) / 2 - 1/5
      < |(pendIntegrateS 0 0 0 (PendState.mk 0 1700 (39/4) 200 0 0 0)).x|) ∧
    (Real.pi / 2
      < |(pendIntegrateS 0 0 0 (PendState.mk 0 1700 (39/4) 200 0 0 0)).theta|) ∧
    (pendStepS 0 0 0 false
        (PendState.mk 0 1700 (39/4) 200 0 0 0)).1 = some PendFailure.crashed := by
  have hx : (pendIntegrateS 0 0 0 (PendState.mk 0 1700 (39/4) 200 0 0 0)).x
      = 84574891/8500000 := by
    simp only [pendIntegrateS]
    norm_num [Real.sin_zero, Real.cos_zero]
  have hth : (pendIntegrateS 0 0 0 (PendState.mk 0 1700 (39/4) 200 0 0 0)).theta
      = normalizeAngle (5779973/3400000 : ℝ) := by
    simp only [pendIntegrateS]
    norm_num [Real.sin_zero, Real.cos_zero]
  have hval : normalizeAngle (5779973/3400000 : ℝ) = 5779973/3400000 := by
    have h := Real.pi_gt_d6
    refine normalizeAngle_eq_self _ (by norm_num at h ⊢; linarith) ?_
    norm_num at h ⊢
    linarith
  have hxgt : (20:ℝ) / 2 - 1/5
      < |(pendIntegrateS 0 0 0 (PendState.mk 0 1700 (39/4) 200 0 0 0)).x| := by
    rw [hx, abs_of_pos (by norm_num)]
    norm_num
  have hthgt : Real.pi / 2
      < |(pendIntegrateS 0 0 0 (PendState.mk 0 1700 (39/4) 200 0 0 0)).theta| := by
    rw [hth, hval, abs_of_pos (by norm_num)]
    have h := Real.pi_lt_d2
    norm_num at h ⊢
    linarith
  exact ⟨hxgt, hthgt, pend_crash_priority 0 0 0 _ hxgt hthgt⟩

end PIDDemo
